import Mathlib

/-
Verification development for the optidex design-search engine (src/v2).

Embedding conventions:
* numpy floating-point numbers are embedded as exact rationals; the special
  float codes nan, +inf, -inf that the source manipulates are the extra
  constructors of NpFloat below, with numpy comparison semantics (every
  comparison against nan is false).
* numpy.linalg.inv raises LinAlgError exactly on a singular input and
  otherwise returns the true inverse; this is the Option-valued minv below.
  numpy.linalg.det and numpy.linalg.eigvals are total on finite inputs, so
  the try/except wrappers around them in the source have an unreachable
  except-branch under this exact-arithmetic model (noted where relevant).
* Python exceptions are the Except monad with the PyErr codes below.
* The eigensolver (numpy.linalg.eigvals composed with max / min) is an
  abstract oracle, since eigenvalues of rational matrices are irrational in
  general; every statement about the E and I criteria is relative to the
  oracle, which both the code model and the spec model share.
-/

open Matrix

/-- The Python exception kinds that the modelled code can raise. -/
inductive PyErr where
  | typeError
  | nameError
  | valueError
  | attributeError
  | indexError
deriving DecidableEq

/-- A numpy scalar: an exact rational or one of the special float codes. -/
inductive NpFloat where
  | nan
  | negInf
  | posInf
  | val (q : ℚ)
deriving DecidableEq

/-- The numpy strict-less comparison: any comparison involving nan is false,
-inf is below every non-nan value and +inf above every non-nan value. -/
def NpFloat.lt : NpFloat → NpFloat → Bool
  | .nan, _ => false
  | _, .nan => false
  | .negInf, .negInf => false
  | .negInf, _ => true
  | _, .negInf => false
  | .posInf, _ => false
  | _, .posInf => true
  | .val a, .val b => decide (a < b)

/-- numpy absolute value on NpFloat (abs of nan is nan, abs of both
infinities is +inf). -/
def NpFloat.abs : NpFloat → NpFloat
  | .nan => .nan
  | .negInf => .posInf
  | .posInf => .posInf
  | .val q => .val |q|

/-- numpy.linalg.inv: raises LinAlgError (here: none) exactly on a singular
matrix, otherwise returns the inverse, computed as det⁻¹ • adjugate. -/
def minv {ι : Type} [Fintype ι] [DecidableEq ι] (A : Matrix ι ι ℚ) :
    Option (Matrix ι ι ℚ) :=
  if A.det = 0 then none else some (A.det⁻¹ • A.adjugate)

/-- Abstract eigensolver oracle standing for numpy.linalg.eigvals composed
with np.max respectively np.min. -/
structure EigOracle where
  emax : {ι : Type} → Matrix ι ι ℚ → ℚ
  emin : {ι : Type} → Matrix ι ι ℚ → ℚ

/-! ## The continuous coordinate-exchange criterion evaluator

Embedded from the closure objective in src/v2/cordex_continuous_parallel.py
(lines 53-103).  The evaluator receives the design matrix Model_mat (with the
swept coordinate already written, line 67), splits it into the
transformed-factor block Gamma (the first f_coeffs columns, line 68) and the
scalar block X (the remaining columns, line 69), builds the augmented
regressor matrix Zetta = [ones, Gamma @ J_cb, X] (line 70) and the
information matrix Mu = Zettaᵀ Zetta (line 71), regularizes it into P
(lines 73-81), and applies the criterion to the sandwich matrix
P⁻¹ Mu P⁻¹ (lines 82-103). -/

/-- The transformed-factor block: the first g columns of the design matrix
(source line 68, Model_mat[:, :f_coeffs]). -/
def cordexGamma {r g sc : ℕ} (Mm : Matrix (Fin r) (Fin (g + sc)) ℚ) :
    Matrix (Fin r) (Fin g) ℚ :=
  fun i k => Mm i (Fin.castAdd sc k)

/-- The scalar block: the remaining sc columns of the design matrix
(source line 69, Model_mat[:, f_coeffs:]). -/
def cordexScal {r g sc : ℕ} (Mm : Matrix (Fin r) (Fin (g + sc)) ℚ) :
    Matrix (Fin r) (Fin sc) ℚ :=
  fun i k => Mm i (Fin.natAdd g k)

/-- The augmented regressor matrix Zetta = [ones, Gamma @ J_cb, X]
(source line 70). Column 0 is the ones column, then the b columns of
Gamma @ J_cb, then the sc scalar columns. -/
def cordexZ {r g sc b : ℕ} (Mm : Matrix (Fin r) (Fin (g + sc)) ℚ)
    (J : Matrix (Fin g) (Fin b) ℚ) : Matrix (Fin r) (Fin (b + sc + 1)) ℚ :=
  fun i => Fin.cons 1
    (Fin.append (fun k => (cordexGamma Mm * J) i k) (fun k => cordexScal Mm i k))

/-- The information matrix Mu = Zettaᵀ Zetta (source line 71). -/
def cordexM {r g sc b : ℕ} (Mm : Matrix (Fin r) (Fin (g + sc)) ℚ)
    (J : Matrix (Fin g) (Fin b) ℚ) :
    Matrix (Fin (b + sc + 1)) (Fin (b + sc + 1)) ℚ :=
  (cordexZ Mm J)ᵀ * cordexZ Mm J

/-- The regularized matrix P (source lines 73-81): identity when neither a
penalty matrix nor a ridge weight is configured, otherwise Mu plus the
configured penalty terms. -/
def cordexP {ι : Type} [Fintype ι] [DecidableEq ι] (M : Matrix ι ι ℚ)
    (R0 : Option (Matrix ι ι ℚ)) (sp rp : ℚ) : Matrix ι ι ℚ :=
  match R0 with
  | none => if rp = 0 then 1 else M + rp • (1 : Matrix ι ι ℚ)
  | some R => if rp = 0 then M + sp • R else M + sp • R + rp • (1 : Matrix ι ι ℚ)

/-- The criterion applied to the information matrix M (source lines 82-103):
invert P (LinAlgError yields np.nan, lines 82-85), form the sandwich
MATRIX = P⁻¹ M P⁻¹ (line 87), then return -det(MATRIX) for D (line 94),
trace(inv(MATRIX)) for A with LinAlgError yielding np.nan (lines 96-100),
and raise ValueError for any other criterion string (lines 101-103).
Under the exact model np.linalg.det never raises, so the except-branch of
the D case (lines 92-93) is unreachable. -/
def cordexCrit {ι : Type} [Fintype ι] [DecidableEq ι] (opt : String)
    (M : Matrix ι ι ℚ) (R0 : Option (Matrix ι ι ℚ)) (sp rp : ℚ) :
    Except PyErr NpFloat :=
  match minv (cordexP M R0 sp rp) with
  | none => .ok .nan
  | some Pinv =>
    let MATRIX := Pinv * M * Pinv
    if opt = "D" then .ok (.val (-(MATRIX.det)))
    else if opt = "A" then
      match minv MATRIX with
      | none => .ok .nan
      | some W => .ok (.val W.trace)
    else .error .valueError

/-- The full continuous-optimizer criterion evaluator: information matrix
from the design, then the criterion (source lines 53-103). -/
def cordexObjective {r g sc b : ℕ} (opt : String)
    (Mm : Matrix (Fin r) (Fin (g + sc)) ℚ) (J : Matrix (Fin g) (Fin b) ℚ)
    (R0 : Option (Matrix (Fin (b + sc + 1)) (Fin (b + sc + 1)) ℚ))
    (sp rp : ℚ) : Except PyErr NpFloat :=
  cordexCrit opt (cordexM Mm J) R0 sp rp

/-- The acceptance test check of cordex_continuous (source lines 105-109):
for A accept when 0 < obj < best, for D accept when obj < 0 < best, under
numpy comparison semantics (so nan is never accepted); any other criterion
string falls through returning Python None, which is falsy. -/
def cordexCheck (opt : String) (obj best : NpFloat) : Bool :=
  if opt = "A" then NpFloat.lt (.val 0) obj && NpFloat.lt obj best
  else if opt = "D" then NpFloat.lt obj (.val 0) && NpFloat.lt (.val 0) best
  else false

/-! ## The refinement-loop criterion evaluator

Embedded from the closure objective in src/v2/bayesian_opt.py
(lines 84-134).  The design (reshaped from its flattened form, line 103) is
augmented with a leading ones column, mapped through J_cb when one is
supplied (line 104), and the criterion is applied directly to M = Zᵀ Z
(lines 105-134) with no penalization. -/

/-- The augmented regressor matrix of the refinement loop: a leading ones
column followed by the given block (source lines 102-104). -/
def boAug {r c : ℕ} (X : Matrix (Fin r) (Fin c) ℚ) :
    Matrix (Fin r) (Fin (c + 1)) ℚ :=
  fun i => Fin.cons 1 (fun k => X i k)

/-- The refinement-loop information matrix M = Zᵀ Z (source line 105). -/
def boInfoM {r c : ℕ} (X : Matrix (Fin r) (Fin c) ℚ) :
    Matrix (Fin (c + 1)) (Fin (c + 1)) ℚ :=
  (boAug X)ᵀ * boAug X

/-- The refinement-loop criterion on the information matrix (source lines
107-134): D returns det(M) (line 112, not negated — the loop maximizes y),
A returns -trace(inv(M)) with a LinAlgError mapped to cr = np.infty hence
-inf (lines 113-118), E returns -max(eigvals(M)) (lines 119-124) and I
returns min(eigvals(M)) (lines 125-130); any other string raises ValueError
(lines 132-134).  Under the exact model det and eigvals never raise, so the
except-branches of D, E and I (which would return +inf, -inf and +inf
respectively) are unreachable. -/
def boCritOnM {ι : Type} [Fintype ι] [DecidableEq ι] (opt : String)
    (eig : EigOracle) (M : Matrix ι ι ℚ) : Except PyErr NpFloat :=
  if opt = "D" then .ok (.val M.det)
  else if opt = "A" then
    match minv M with
    | none => .ok .negInf
    | some W => .ok (.val (-(W.trace)))
  else if opt = "E" then .ok (.val (-(eig.emax M)))
  else if opt = "I" then .ok (.val (eig.emin M))
  else .error .valueError

/-- The full refinement-loop criterion evaluator (source lines 84-134). -/
def boObjective {r f b : ℕ} (opt : String) (eig : EigOracle)
    (X : Matrix (Fin r) (Fin f) ℚ)
    (Jcb : Option (Matrix (Fin f) (Fin b) ℚ)) : Except PyErr NpFloat :=
  match Jcb with
  | none => boCritOnM opt eig (boInfoM X)
  | some J => boCritOnM opt eig (boInfoM (X * J))

/-! ## Spec-side reference definitions (for the refinement claims) -/

/-- The criterion formula exactly as the words of spec section 4.1 step 5
give it for the criteria the continuous optimizer supports: D is the
determinant of the (already sandwiched) matrix, internally negated; A is the
trace of the inverse of that matrix; a singular-matrix condition yields the
nan sentinel; other kinds are a configuration error. -/
def specCriterionApply {ι : Type} [Fintype ι] [DecidableEq ι] (opt : String)
    (Mstar : Matrix ι ι ℚ) : Except PyErr NpFloat :=
  if opt = "D" then .ok (.val (-(Mstar.det)))
  else if opt = "A" then
    match minv Mstar with
    | none => .ok .nan
    | some W => .ok (.val W.trace)
  else .error .valueError

/-- The continuous-optimizer criterion evaluator exactly as the words of
spec section 4.1 describe it (steps 3-5): regularize
P = M + smoothness_weight • R0 + ridge_weight • I with an absent matrix
treated as the zero matrix, compute the sandwich matrix r P⁻¹ M P⁻¹ when
penalization is applied (some penalty matrix configured or a nonzero ridge),
else operate directly on M.  This definition follows the sentence structure
of the spec, to be compared with cordexObjective, which follows the code. -/
def specCriterionCordex {ι : Type} [Fintype ι] [DecidableEq ι] (opt : String)
    (M : Matrix ι ι ℚ) (R0 : Option (Matrix ι ι ℚ)) (sp rp : ℚ) :
    Except PyErr NpFloat :=
  let P : Matrix ι ι ℚ := M + sp • (R0.getD 0) + rp • (1 : Matrix ι ι ℚ)
  if R0.isSome ∨ rp ≠ 0 then
    match minv P with
    | none => .ok .nan
    | some Pinv => specCriterionApply opt (Pinv * M * Pinv)
  else specCriterionApply opt M

/-- The refinement-loop criterion table under the amended sign convention
(the loop maximizes the objective directly): D is det(M) not negated, A is
the negated trace of the inverse of M with the -inf sentinel on a singular
matrix, E is the negated largest eigenvalue and I the smallest eigenvalue,
with no penalization. -/
def specCriterionBo {ι : Type} [Fintype ι] [DecidableEq ι] (opt : String)
    (eig : EigOracle) (M : Matrix ι ι ℚ) : Except PyErr NpFloat :=
  if opt = "D" then .ok (.val M.det)
  else if opt = "A" then
    match minv M with
    | none => .ok .negInf
    | some W => .ok (.val (-(W.trace)))
  else if opt = "E" then .ok (.val (-(eig.emax M)))
  else if opt = "I" then .ok (.val (eig.emin M))
  else .error .valueError

/-! ## The cordex_continuous driver

Embedded from cordex_continuous (src/v2/cordex_continuous_parallel.py,
lines 9-170) with the sequential scheduler (num_processes=None).

Python scoping facts that the model captures (they decide several claims):
* The nested functions objective and check close over the frame of
  cordex_continuous itself.  Inside run_epoch the names Model_mat, run,
  feat, Best_obj and Best_des are assigned, so they are locals of run_epoch
  (Python resolves locality statically); the assignments at lines 117, 119,
  125, 131 and 132 therefore never touch the enclosing variables that
  objective and check read, and the cells for run and feat in the enclosing
  frame stay unbound until the final-pass loop at lines 161-162.
* In the sequential branch (line 149) each epoch calls run_epoch(None), and
  line 112 unpacks that None, raising TypeError.
* In the enclosing frame Model_mat is initialized to None (line 145), so
  the final pass at line 161 evaluates None.shape, raising AttributeError.
-/

/-- The enclosing cordex_continuous frame cells that the objective closure
reads: the Model_mat cell (None before the final pass) and the run and feat
cells (unbound before the final pass).  Dm is the design-matrix type. -/
structure EnclosingFrame (Dm : Type) where
  modelMat : Option Dm
  runCell : Option ℕ
  featCell : Option ℕ

/-- The enclosing frame as it stands during the epoch phase: Model_mat is
None (line 145) and the run and feat cells are unbound. -/
def epochsFrame {Dm : Type} : EnclosingFrame Dm :=
  { modelMat := none, runCell := none, featCell := none }

/-- A call of the objective closure with argument x, as executed by the 1-D
minimizer inside an epoch sweep (source line 123): the first statement
Model_mat[run, feat] = x loads the enclosing Model_mat cell, then the
enclosing run and feat cells.  An unbound run or feat cell raises NameError;
a Model_mat bound to None raises TypeError from subscripting None; only with
all three bound does the criterion evaluation proceed, on the design with x
written at (run, feat). -/
def objectiveClosureCall {r g sc b : ℕ} (opt : String)
    (fr : EnclosingFrame (Matrix (Fin r) (Fin (g + sc)) ℚ))
    (J : Matrix (Fin g) (Fin b) ℚ)
    (R0 : Option (Matrix (Fin (b + sc + 1)) (Fin (b + sc + 1)) ℚ))
    (sp rp : ℚ) (x : ℚ) : Except PyErr NpFloat :=
  match fr.runCell, fr.featCell with
  | none, _ => .error .nameError
  | some _, none => .error .nameError
  | some run, some feat =>
    match fr.modelMat with
    | none => .error .typeError
    | some Mm =>
      if hr : run < r then
        if hf : feat < g + sc then
          cordexObjective opt
            (fun i j => if i = ⟨run, hr⟩ ∧ j = ⟨feat, hf⟩ then x else Mm i j)
            J R0 sp rp
        else .error .indexError
      else .error .indexError

/-- The configuration checks that cordex_continuous runs before any epoch
(source lines 134-139): the optimization method must be one of the four
supported strings, and the estimability guard compares runs against
len(f_list) + scalars (the length of the factor list, not the sum of the
per-factor basis sizes that the error message itself prints). -/
def cordexPreCheck (runs : ℕ) (f_list : List ℕ) (scalars : ℕ)
    (method : String) : Option PyErr :=
  if ¬ (method = "Nelder-Mead" ∨ method = "Powell" ∨ method = "TNC" ∨
        method = "L-BFGS-B") then some .valueError
  else if runs < f_list.length + scalars then some .valueError
  else none

/-- The sequential run of cordex_continuous (num_processes=None), embedded
from source lines 134-170.  After the pre-checks, Best_des is None, Best_obj
is np.inf and Model_mat is None (lines 141-145).  With epochs ≥ 1 the first
loop iteration calls run_epoch(None) (line 149), whose argument unpacking at
line 112 raises TypeError.  With epochs = 0 the loop body never runs; the
final pass (when enabled with at least one iteration) evaluates
Model_mat.shape on None (line 161), raising AttributeError; otherwise the
function returns (Best_des, np.abs(Best_obj)) = (None, +inf) (line 170).
The design-matrix type is abstract (Dm) because no reachable path ever
constructs a design.  The criterion string is not consulted on any of these
paths (it is read only inside the objective and check closures). -/
def cordexRun (Dm : Type) (runs : ℕ) (f_list : List ℕ) (scalars : ℕ)
    (optimality method : String) (epochs : ℕ) (finalPass : Bool)
    (finalPassIter : ℕ) : Except PyErr (Option Dm × NpFloat) :=
  match cordexPreCheck runs f_list scalars method with
  | some e => .error e
  | none =>
    if epochs ≠ 0 then .error .typeError
    else if finalPass ∧ finalPassIter ≠ 0 then .error .attributeError
    else .ok (none, NpFloat.abs .posInf)

/-! ## The refinement loop bo_loop

Embedded from bo_loop (src/v2/bayesian_opt.py, lines 66-213).  The botorch
surrogate fit and acquisition optimization (gen_next_point) are external
collaborators (spec section 1 places them out of scope), so the model takes
them as a round-indexed oracle that either fails (anything the bare except
at line 194 would catch) or yields a candidate; the candidate objective
value is likewise supplied by a total function, since for a fixed valid
criterion the objective never raises. -/

/-- The loop state of bo_loop: the rows of X_init, the entries of y_init,
best_y_init and epochs_list (round index, new objective value, candidate). -/
structure BoSt (α : Type) where
  X : List α
  y : List ℚ
  best : ℚ
  elist : List (ℕ × ℚ × α)

/-- Maximum of a list of rationals with default 0 for the empty list
(models tensor.max() on the always-nonempty y_init). -/
def maxQ : List ℚ → ℚ
  | [] => 0
  | a :: as => as.foldl max a

/-- One round of bo_loop (source lines 190-205).  If candidate generation
(surrogate fit included) fails, the last row of X_init and of y_init is
dropped and the loop continues (lines 194-198) — best_y_init and
epochs_list are untouched.  Otherwise the candidate is evaluated, appended
to X_init and y_init, best_y_init is recomputed as the maximum of the grown
y_init, and the round is recorded in epochs_list (lines 199-205). -/
def boStep {α : Type} (gen : ℕ → Except Unit α) (objv : α → ℚ) (r : ℕ)
    (st : BoSt α) : BoSt α :=
  match gen r with
  | .error _ => { st with X := st.X.dropLast, y := st.y.dropLast }
  | .ok cand =>
    let v := objv cand
    let y := st.y ++ [v]
    { X := st.X ++ [cand], y := y, best := maxQ y,
      elist := st.elist ++ [(r, v, cand)] }

/-- The initial state of bo_loop: one observation (the initial design and
its objective value), best_y initialized to that value, empty epochs_list
(source lines 168-188). -/
def boInit {α : Type} (objv : α → ℚ) (x0 : α) : BoSt α :=
  { X := [x0], y := [objv x0], best := objv x0, elist := [] }

/-- First-maximum selection over epochs_list by the recorded objective value
(source line 208, np.argmax returns the first occurrence of the maximum). -/
def argmaxObs {α : Type} : List (ℕ × ℚ × α) → Option (ℕ × ℚ × α)
  | [] => none
  | e :: es => some (es.foldl (fun b z => if b.2.1 < z.2.1 then z else b) e)

/-- The whole of bo_loop after initialization (source lines 190-213): run
the rounds, then select the best recorded round.  When epochs_list is empty
(every round failed, or a zero round budget), line 208 indexes an empty
array and raises IndexError.  Otherwise the selected value is sign-corrected
(negated unless the criterion is D or I, line 212) and returned with the
selected candidate. -/
def boLoopRun {α : Type} (opt : String) (gen : ℕ → Except Unit α)
    (objv : α → ℚ) (epochs : ℕ) (st0 : BoSt α) : Except PyErr (α × ℚ) :=
  let st := (List.range epochs).foldl (fun s r => boStep gen objv r s) st0
  match argmaxObs st.elist with
  | none => .error .indexError
  | some (_, v, c) => .ok (c, if opt = "D" ∨ opt = "I" then v else -v)

/-! ## The Fourier basis (src/v2/basis.py, lines 56-62) -/

namespace basis

/-- The Fourier basis function from src/v2/basis.py: sqrt(1/2) at index 0,
cos(p·π·t) at even index p, and sin((p-1)·π·t) at odd index p. -/
noncomputable def fourier (t : ℝ) (p : ℕ) : ℝ :=
  if p = 0 then Real.sqrt (1 / 2)
  else if p % 2 = 0 then Real.cos (p * Real.pi * t)
  else Real.sin (((p - 1 : ℕ) : ℝ) * Real.pi * t)

end basis

/-! ## Helper lemmas -/

/-- Inverting the identity never fails and yields the identity. -/
theorem minv_one {ι : Type} [Fintype ι] [DecidableEq ι] :
    minv (1 : Matrix ι ι ℚ) = some 1 := by
  rw [minv, if_neg (by simp)]
  simp

/-- cordexCrit, with its inner criterion if-chain folded into the spec-side
criterion formula (the two are definitionally the same if-chain). -/
theorem cordexCrit_as_apply {ι : Type} [Fintype ι] [DecidableEq ι]
    (opt : String) (M : Matrix ι ι ℚ) (R0 : Option (Matrix ι ι ℚ))
    (sp rp : ℚ) :
    cordexCrit opt M R0 sp rp =
      match minv (cordexP M R0 sp rp) with
      | none => .ok .nan
      | some Pinv => specCriterionApply opt (Pinv * M * Pinv) := by
  cases h : minv (cordexP M R0 sp rp) <;>
    simp [cordexCrit, specCriterionApply, h]

/-! ## C10 -/

/-- C10: for every input t, the Fourier basis function at index 1 evaluates
to zero, because the odd-index branch computes sin((p-1)·π·t), so the first
odd Fourier basis function is identically the zero function. -/
theorem fourier_at_index_one_is_zero : ∀ t : ℝ, basis.fourier t 1 = 0 := by
  intro t
  simp [basis.fourier]

/-! ## C4 -/

/-- C4 is a code bug: the estimability guard of cordex_continuous compares
the run count against len(f_list) + scalars, not against
sum(f_list) + scalars (which its own error message prints as the parameter
count).  At runs = 2, f_list = [3], scalars = 0 we have
runs = sum(f_list) + scalars - 1, which the claim says must raise, yet the
pre-check passes (and the claimed inequality runs < sum + scalars holds). -/
theorem estimability_guard_uses_length_not_sum :
    cordexPreCheck 2 [3] 0 "L-BFGS-B" = none
    ∧ 2 = [3].sum + 0 - 1 ∧ 2 < [3].sum + 0 := by
  refine ⟨?_, by norm_num, by norm_num⟩
  simp [cordexPreCheck]

/-! ## C3 -/

/-- C3 is a code bug: with any positive epoch budget the sequential
scheduler calls run_epoch(None), whose argument unpacking raises TypeError,
so cordex_continuous never returns a (design, objective) pair at all — a
fortiori the returned pair is not at least as good as the best epoch.
(In the parallel regime the epochs fail too: the objective closure reads
the enclosing frame, see the C5 theorem; and run_epoch assigns Best_obj and
Best_des as its own locals, so no epoch result can ever reach the shared
best either way.) -/
theorem sequential_run_with_epochs_raises :
    cordexRun Unit 5 [1] 0 "A" "L-BFGS-B" 1 true 100 =
      .error .typeError := by
  simp [cordexRun, cordexPreCheck]

/-! ## C7 -/

/-- C7 is a code bug: on the one path that reaches the return statement
(zero epochs, final pass disabled) cordex_continuous returns the initial
Best-Result Pair (None, abs(inf)) = (None, +inf): the stored objective
value +inf is not the criterion value of any stored design, since no design
is stored at all. -/
theorem returned_pair_holds_no_design :
    cordexRun Unit 5 [1] 0 "A" "L-BFGS-B" 0 false 100 =
      .ok (none, NpFloat.posInf) := by
  simp [cordexRun, cordexPreCheck, NpFloat.abs]

/-! ## C5 -/

/-- C5 is a code bug: the 1-D optimization of a sweep calls the objective
closure, whose free variables Model_mat, run and feat resolve to the frame
of cordex_continuous, not to the locals of run_epoch; during the epoch
phase the run and feat cells there are unbound, so the very first objective
evaluation raises NameError — the sweep never optimizes a coordinate
against the epoch design and never writes an optimized value back. -/
theorem sweep_objective_call_raises_name_error :
    @objectiveClosureCall 2 1 0 1 "A" epochsFrame
      (1 : Matrix (Fin 1) (Fin 1) ℚ) none 0 0 (1/2) =
      .error .nameError := rfl

/-- The continuous-optimizer criterion (as the code computes it, always
through the sandwich with P) agrees with the spec-side formulation (sandwich
only when penalization is applied, direct otherwise): when nothing is
configured the code's P is the identity and the sandwich collapses to M. -/
theorem cordexCrit_eq_specCordex {ι : Type} [Fintype ι] [DecidableEq ι]
    (opt : String) (M : Matrix ι ι ℚ) (R0 : Option (Matrix ι ι ℚ))
    (sp rp : ℚ) :
    cordexCrit opt M R0 sp rp = specCriterionCordex opt M R0 sp rp := by
  rw [cordexCrit_as_apply]
  rcases R0 with _ | R
  · by_cases hrp : rp = 0
    · subst hrp
      have hP : cordexP M (none : Option (Matrix ι ι ℚ)) sp 0 = 1 := by
        simp [cordexP]
      rw [hP, minv_one]
      simp [specCriterionCordex, Matrix.one_mul, Matrix.mul_one]
    · have hP : cordexP M (none : Option (Matrix ι ι ℚ)) sp rp =
          M + sp • ((none : Option (Matrix ι ι ℚ)).getD 0) + rp • 1 := by
        simp [cordexP, hrp]
      rw [hP]
      simp [specCriterionCordex, hrp]
  · by_cases hrp : rp = 0
    · subst hrp
      have hP : cordexP M (some R) sp 0 =
          M + sp • ((some R).getD 0) + (0 : ℚ) • 1 := by
        simp [cordexP]
      rw [hP]
      simp [specCriterionCordex]
    · have hP : cordexP M (some R) sp rp =
          M + sp • ((some R).getD 0) + rp • 1 := by
        simp [cordexP, hrp]
      rw [hP]
      simp [specCriterionCordex, hrp]

/-! ## C1 -/

/-- A concrete two-run, one-factor refinement-loop design: rows 1 and -1. -/
def X01 : Matrix (Fin 2) (Fin 1) ℚ := !![1; -1]

/-- A trivial eigensolver oracle (the D-criterion branch never consults
it). -/
def eigTriv : EigOracle := ⟨fun _ => 0, fun _ => 0⟩

/-- The augmented regressor matrix of the concrete design. -/
theorem boAug_X01 : boAug X01 = !![1, 1; 1, -1] := by
  ext i j
  fin_cases i <;> fin_cases j <;> rfl

/-- The information matrix of the concrete design. -/
theorem boInfoM_X01 : boInfoM X01 = !![2, 0; 0, 2] := by
  rw [boInfoM, boAug_X01]
  ext i j
  rw [Matrix.mul_apply]
  fin_cases i <;> fin_cases j <;>
    norm_num [Fin.sum_univ_two, Matrix.transpose_apply]

/-- C1 counterexample: the claim says the Criterion Evaluator returns, for
D, the determinant of M* internally negated; but the refinement-loop
evaluator (one of the two evaluators the claim covers) returns the
determinant NOT negated.  At the concrete design X01 (no basis matrix) the
information matrix has determinant 4 and the evaluator returns +4, not
-4. -/
theorem bo_D_returns_unnegated_det :
    (boInfoM X01).det = 4
    ∧ boObjective "D" eigTriv X01
        (none : Option (Matrix (Fin 1) (Fin 1) ℚ)) = .ok (.val 4)
    ∧ boObjective "D" eigTriv X01
        (none : Option (Matrix (Fin 1) (Fin 1) ℚ)) ≠
        .ok (.val (-((boInfoM X01).det))) := by
  have hdet : (boInfoM X01).det = 4 := by
    rw [boInfoM_X01, Matrix.det_fin_two]
    norm_num
  refine ⟨hdet, ?_, ?_⟩
  · simp [boObjective, boCritOnM, hdet]
  · simp [boObjective, boCritOnM, hdet]
    norm_num

/-- C1 amended: both criterion evaluators compute the spec pipeline
(augmented regressor matrix, information matrix M, regularized P, sandwich
M* when penalization is configured) but with per-component sign tables: the
continuous optimizer returns -det(M*) for D and trace(inv(M*)) for A exactly
as the spec words it, while the refinement-loop evaluator (which supports
all four kinds, applies no penalization, and maximizes its objective
directly) returns +det(M) for D, -trace(inv(M)) for A, -max-eigenvalue for
E and +min-eigenvalue for I. -/
theorem criterion_evaluators_refine_spec :
    (∀ (r g sc b : ℕ) (opt : String) (Mm : Matrix (Fin r) (Fin (g + sc)) ℚ)
        (J : Matrix (Fin g) (Fin b) ℚ)
        (R0 : Option (Matrix (Fin (b + sc + 1)) (Fin (b + sc + 1)) ℚ))
        (sp rp : ℚ),
        cordexObjective opt Mm J R0 sp rp =
          specCriterionCordex opt (cordexM Mm J) R0 sp rp)
    ∧ (∀ (r f b : ℕ) (opt : String) (eig : EigOracle)
        (X : Matrix (Fin r) (Fin f) ℚ)
        (Jc : Option (Matrix (Fin f) (Fin b) ℚ)),
        boObjective opt eig X Jc =
          match Jc with
          | none => specCriterionBo opt eig (boInfoM X)
          | some J => specCriterionBo opt eig (boInfoM (X * J))) := by
  constructor
  · intro r g sc b opt Mm J R0 sp rp
    exact cordexCrit_eq_specCordex opt (cordexM Mm J) R0 sp rp
  · intro r f b opt eig X Jc
    cases Jc <;> rfl

/-! ## C2 -/

/-- A one-run continuous-optimizer design (one scalar column, no
transformed factors): its information matrix is singular, since a single
run cannot support two regressors. -/
def Xsing : Matrix (Fin 1) (Fin (0 + 1)) ℚ := !![1]

/-- A feasible two-run continuous-optimizer design (one scalar column). -/
def Xfeas : Matrix (Fin 2) (Fin (0 + 1)) ℚ := !![1; -1]

/-- The empty basis-expansion matrix (no transformed factors). -/
def Jemp : Matrix (Fin 0) (Fin 0) ℚ := 1

/-- The augmented regressor matrix of the singular design. -/
theorem cordexZ_Xsing : cordexZ Xsing Jemp = !![1, 1] := by
  ext i j
  fin_cases i <;> fin_cases j <;> rfl

/-- The information matrix of the singular design. -/
theorem cordexM_Xsing : cordexM Xsing Jemp = !![1, 1; 1, 1] := by
  rw [cordexM, cordexZ_Xsing]
  ext i j
  rw [Matrix.mul_apply]
  fin_cases i <;> fin_cases j <;>
    norm_num [Fin.sum_univ_one, Matrix.transpose_apply]

/-- The augmented regressor matrix of the feasible design. -/
theorem cordexZ_Xfeas : cordexZ Xfeas Jemp = !![1, 1; 1, -1] := by
  ext i j
  fin_cases i <;> fin_cases j <;> rfl

/-- The information matrix of the feasible design. -/
theorem cordexM_Xfeas : cordexM Xfeas Jemp = !![2, 0; 0, 2] := by
  rw [cordexM, cordexZ_Xfeas]
  ext i j
  rw [Matrix.mul_apply]
  fin_cases i <;> fin_cases j <;>
    norm_num [Fin.sum_univ_two, Matrix.transpose_apply]

/-- C2 counterexample: with no penalization configured, the A-criterion on
the singular one-run design hits a LinAlgError in the inversion and returns
the nan sentinel without raising; but nan is NOT strictly worse than the
value of a feasible candidate under the A direction (A minimizes, so worse
means greater, and no numpy comparison against nan holds): the feasible
two-run design evaluates to 1 and the comparison 1 < nan is false. -/
theorem nan_sentinel_not_strictly_worse :
    cordexObjective "A" Xsing Jemp none 0 0 = .ok .nan
    ∧ cordexObjective "A" Xfeas Jemp none 0 0 = .ok (.val 1)
    ∧ NpFloat.lt (.val 1) .nan = false := by
  refine ⟨?_, ?_, rfl⟩
  · rw [cordexObjective, cordexCrit_as_apply]
    have hP : cordexP (cordexM Xsing Jemp) none 0 0 = 1 := by
      simp [cordexP]
    rw [hP, minv_one]
    have hdet : (cordexM Xsing Jemp).det = 0 := by
      rw [cordexM_Xsing, Matrix.det_fin_two]
      norm_num
    simp [specCriterionApply, minv, hdet]
  · rw [cordexObjective, cordexCrit_as_apply]
    have hP : cordexP (cordexM Xfeas Jemp) none 0 0 = 1 := by
      simp [cordexP]
    rw [hP, minv_one]
    show specCriterionApply "A"
      ((1 : Matrix (Fin 2) (Fin 2) ℚ) * cordexM Xfeas Jemp * 1) = _
    rw [Matrix.one_mul, Matrix.mul_one, cordexM_Xfeas]
    have hmi : minv (!![2, 0; 0, 2] : Matrix (Fin 2) (Fin 2) ℚ) =
        some ((4 : ℚ)⁻¹ • (!![2, 0; 0, 2] : Matrix (Fin 2) (Fin 2) ℚ).adjugate) := by
      have hdet : (!![2, 0; 0, 2] : Matrix (Fin 2) (Fin 2) ℚ).det = 4 := by
        rw [Matrix.det_fin_two]
        norm_num
      rw [minv, if_neg (by rw [hdet]; norm_num), hdet]
    have htr : ((4 : ℚ)⁻¹ •
        (!![2, 0; 0, 2] : Matrix (Fin 2) (Fin 2) ℚ).adjugate).trace = 1 := by
      rw [Matrix.adjugate_fin_two_of, Matrix.trace_smul, Matrix.trace_fin_two_of]
      norm_num
    norm_num [specCriterionApply, hmi, htr]
    rw [if_neg (by decide), Matrix.trace_fin_two_of]
    norm_num

/-- C2 amended: a singular-matrix condition never raises, and the sentinel
is never accepted as the running best, but the sentinels differ by
component: in the continuous optimizer a singular P (or, for A, a singular
sandwich matrix) yields the nan sentinel, which is unordered rather than
strictly worse, and the acceptance test rejects nan against every running
best for both supported kinds; in the refinement loop a singular
information matrix under A yields the -inf sentinel, which IS strictly
below every finite feasible value under that maximize direction (D, E and
I there perform no inversion, so no singular condition arises for them
under the exact model). -/
theorem singular_sentinel_policy_amended :
    (∀ best : NpFloat, cordexCheck "A" .nan best = false
        ∧ cordexCheck "D" .nan best = false)
    ∧ (∀ (ι : Type) [Fintype ι] [DecidableEq ι] (opt : String)
        (M : Matrix ι ι ℚ) (R0 : Option (Matrix ι ι ℚ)) (sp rp : ℚ),
        (cordexP M R0 sp rp).det = 0 →
        cordexCrit opt M R0 sp rp = .ok .nan)
    ∧ (∀ (ι : Type) [Fintype ι] [DecidableEq ι] (M : Matrix ι ι ℚ)
        (R0 : Option (Matrix ι ι ℚ)) (sp rp : ℚ)
        (Pinv : Matrix ι ι ℚ),
        minv (cordexP M R0 sp rp) = some Pinv →
        (Pinv * M * Pinv).det = 0 →
        cordexCrit "A" M R0 sp rp = .ok .nan)
    ∧ (∀ (ι : Type) [Fintype ι] [DecidableEq ι] (eig : EigOracle)
        (M : Matrix ι ι ℚ), M.det = 0 →
        boCritOnM "A" eig M = .ok .negInf)
    ∧ (∀ q : ℚ, NpFloat.lt .negInf (.val q) = true) := by
  refine ⟨fun best => ⟨rfl, rfl⟩, ?_, ?_, ?_, fun q => rfl⟩
  · intro ι _ _ opt M R0 sp rp h
    simp [cordexCrit, minv, h]
  · intro ι _ _ M R0 sp rp Pinv h1 h2
    rw [cordexCrit_as_apply, h1]
    have hm : minv (Pinv * M * Pinv) = none := by
      simp only [minv]
      rw [if_pos h2]
    simp [specCriterionApply, hm]
  · intro ι _ _ eig M h
    simp [boCritOnM, minv, h]

/-- Witness for the amended C2 theorem at concrete inputs: the acceptance
test rejects nan against the best value 5; a 2x2 all-ones information
matrix with a zero penalty matrix makes P singular and D yields nan; the
same matrix with no penalization makes the A sandwich singular and yields
nan; the refinement-loop A criterion on it yields -inf; and -inf is
strictly below the finite value 7. -/
theorem singular_sentinel_policy_amended_witness :
    cordexCheck "A" .nan (.val 5) = false
    ∧ cordexCrit "D" (!![1, 1; 1, 1] : Matrix (Fin 2) (Fin 2) ℚ)
        (some 0) 0 0 = .ok .nan
    ∧ cordexCrit "A" (!![1, 1; 1, 1] : Matrix (Fin 2) (Fin 2) ℚ)
        none 0 0 = .ok .nan
    ∧ boCritOnM "A" eigTriv (!![1, 1; 1, 1] : Matrix (Fin 2) (Fin 2) ℚ) =
        .ok .negInf
    ∧ NpFloat.lt .negInf (.val 7) = true := by
  have hdet : (!![1, 1; 1, 1] : Matrix (Fin 2) (Fin 2) ℚ).det = 0 := by
    rw [Matrix.det_fin_two]
    norm_num
  refine ⟨(singular_sentinel_policy_amended.1 (.val 5)).1,
      singular_sentinel_policy_amended.2.1 (Fin 2) "D" _ (some 0) 0 0 ?_,
      singular_sentinel_policy_amended.2.2.1 (Fin 2) _ none 0 0 1 ?_ ?_,
      singular_sentinel_policy_amended.2.2.2.1 (Fin 2) eigTriv _ hdet,
      singular_sentinel_policy_amended.2.2.2.2 7⟩
  · have hP : cordexP (!![1, 1; 1, 1] : Matrix (Fin 2) (Fin 2) ℚ)
        (some 0) 0 0 = !![1, 1; 1, 1] := by
      simp [cordexP]
    rw [hP, hdet]
  · have hP : cordexP (!![1, 1; 1, 1] : Matrix (Fin 2) (Fin 2) ℚ)
        none 0 0 = 1 := by
      simp [cordexP]
    rw [hP, minv_one]
  · rw [Matrix.one_mul, Matrix.mul_one, hdet]

/-! ## C8 -/

/-- C8 counterexample: an invalid criterion kind is NOT raised before
search work begins.  The pre-epoch configuration checks do not consult the
criterion at all (they pass for an estimable, valid-method call regardless
of the criterion string); a run with the invalid criterion Z fails with the
scheduler TypeError, not with the configuration ValueError; and the
ValueError for an invalid criterion lives only inside the criterion
evaluator, i.e. it could only ever surface during search work. -/
theorem invalid_criterion_not_checked_before_search :
    cordexPreCheck 5 [1] 0 "L-BFGS-B" = none
    ∧ cordexRun Unit 5 [1] 0 "Z" "L-BFGS-B" 1 true 100 = .error .typeError
    ∧ cordexCrit "Z" (1 : Matrix (Fin 2) (Fin 2) ℚ) none 0 0 =
        .error .valueError := by
  refine ⟨by simp [cordexPreCheck], by simp [cordexRun, cordexPreCheck], ?_⟩
  rw [cordexCrit_as_apply]
  have hP : cordexP (1 : Matrix (Fin 2) (Fin 2) ℚ) none 0 0 = 1 := by
    simp [cordexP]
  rw [hP, minv_one]
  simp [specCriterionApply]

/-- C8 amended: an invalid optimization method and a (length-based)
non-estimable run/factor combination are raised before any search work
begins; an invalid criterion kind is not checked before search — its
ValueError is raised only by the criterion evaluator when it is called
during search, and a run with an invalid criterion but valid method and
estimable dimensions fails with the scheduler TypeError instead of a
configuration error. -/
theorem config_error_policy_amended :
    (∀ (Dm : Type) (runs : ℕ) (f_list : List ℕ) (scalars : ℕ)
        (opt method : String) (epochs : ℕ) (fp : Bool) (fpi : ℕ),
        ¬(method = "Nelder-Mead" ∨ method = "Powell" ∨ method = "TNC" ∨
          method = "L-BFGS-B") →
        cordexRun Dm runs f_list scalars opt method epochs fp fpi =
          .error .valueError)
    ∧ (∀ (Dm : Type) (runs : ℕ) (f_list : List ℕ) (scalars : ℕ)
        (opt : String) (epochs : ℕ) (fp : Bool) (fpi : ℕ),
        runs < f_list.length + scalars →
        cordexRun Dm runs f_list scalars opt "L-BFGS-B" epochs fp fpi =
          .error .valueError)
    ∧ (∀ (ι : Type) [Fintype ι] [DecidableEq ι] (opt : String)
        (M : Matrix ι ι ℚ) (R0 : Option (Matrix ι ι ℚ)) (sp rp : ℚ)
        (Pinv : Matrix ι ι ℚ),
        opt ≠ "D" → opt ≠ "A" → minv (cordexP M R0 sp rp) = some Pinv →
        cordexCrit opt M R0 sp rp = .error .valueError)
    ∧ (∀ (Dm : Type) (runs : ℕ) (f_list : List ℕ) (scalars : ℕ)
        (opt : String) (epochs : ℕ) (fp : Bool) (fpi : ℕ),
        epochs ≠ 0 → ¬(runs < f_list.length + scalars) →
        cordexRun Dm runs f_list scalars opt "L-BFGS-B" epochs fp fpi =
          .error .typeError) := by
  have hpc : ∀ (runs : ℕ) (f_list : List ℕ) (scalars : ℕ),
      cordexPreCheck runs f_list scalars "L-BFGS-B" =
        if runs < f_list.length + scalars then some .valueError else none := by
    intro runs f_list scalars
    simp [cordexPreCheck]
  refine ⟨?_, ?_, ?_, ?_⟩
  · intro Dm runs f_list scalars opt method epochs fp fpi h
    simp only [cordexRun, cordexPreCheck, if_pos h]
  · intro Dm runs f_list scalars opt epochs fp fpi h
    simp only [cordexRun, hpc, if_pos h]
  · intro ι _ _ opt M R0 sp rp Pinv hD hA hm
    rw [cordexCrit_as_apply, hm]
    simp [specCriterionApply, hD, hA]
  · intro Dm runs f_list scalars opt epochs fp fpi he h
    simp only [cordexRun, hpc, if_neg h]
    simp [he]

/-- Witness for the amended C8 theorem at concrete inputs. -/
theorem config_error_policy_amended_witness :
    cordexRun Unit 5 [1] 0 "A" "foo" 3 true 100 = .error .valueError
    ∧ cordexRun Unit 0 [1] 0 "A" "L-BFGS-B" 3 true 100 = .error .valueError
    ∧ cordexCrit "Z" (1 : Matrix (Fin 0) (Fin 0) ℚ) none 0 0 =
        .error .valueError
    ∧ cordexRun Unit 5 [1] 0 "Z" "L-BFGS-B" 2 true 100 =
        .error .typeError := by
  refine ⟨config_error_policy_amended.1 Unit 5 [1] 0 "A" "foo" 3 true 100
        (by decide),
      config_error_policy_amended.2.1 Unit 0 [1] 0 "A" 3 true 100
        (by norm_num),
      config_error_policy_amended.2.2.1 (Fin 0) "Z" 1 none 0 0 1
        (by decide) (by decide) ?_,
      config_error_policy_amended.2.2.2 Unit 5 [1] 0 "Z" 2 true 100
        (by norm_num) (by norm_num)⟩
  have hP : cordexP (1 : Matrix (Fin 0) (Fin 0) ℚ) none 0 0 = 1 := by
    simp [cordexP]
  rw [hP, minv_one]

/-! ## C6 and C9: the refinement loop rounds -/

/-- A candidate-generation oracle in which every round fails (every
surrogate fit / acquisition step raises something the bare except
catches). -/
def genFailAll : ℕ → Except Unit ℚ := fun _ => .error ()

/-- A candidate-generation oracle in which every round succeeds with the
candidate 0. -/
def genOkZero : ℕ → Except Unit ℚ := fun _ => .ok 0

/-- A round never shrinks epochs_list: it leaves it unchanged (failure) or
appends one entry (success). -/
theorem boStep_elist {α : Type} (gen : ℕ → Except Unit α) (objv : α → ℚ)
    (r : ℕ) (st : BoSt α) :
    (boStep gen objv r st).elist = st.elist
    ∨ ∃ e, (boStep gen objv r st).elist = st.elist ++ [e] := by
  cases h : gen r with
  | error e => exact Or.inl (by simp [boStep, h])
  | ok c => exact Or.inr ⟨(r, objv c, c), by simp [boStep, h]⟩

/-- Folding rounds never decreases the length of epochs_list. -/
theorem boRounds_elist_le {α : Type} (gen : ℕ → Except Unit α)
    (objv : α → ℚ) (rs : List ℕ) (st : BoSt α) :
    st.elist.length ≤
      (rs.foldl (fun s r => boStep gen objv r s) st).elist.length := by
  induction rs generalizing st with
  | nil => exact le_refl _
  | cons a tl ih =>
    refine le_trans ?_ (ih (boStep gen objv a st))
    rcases boStep_elist gen objv a st with h | ⟨e, h⟩ <;> simp [h]

/-- If some round in the schedule succeeds, the final epochs_list is
nonempty. -/
theorem boRounds_elist_ne_nil {α : Type} (gen : ℕ → Except Unit α)
    (objv : α → ℚ) (rs : List ℕ) (st : BoSt α) (r : ℕ) (hr : r ∈ rs)
    (c : α) (hc : gen r = .ok c) :
    (rs.foldl (fun s r => boStep gen objv r s) st).elist ≠ [] := by
  induction rs generalizing st with
  | nil => cases hr
  | cons a tl ih =>
    rcases List.mem_cons.mp hr with rfl | hmem
    · intro hnil
      have h1 : 1 ≤ (boStep gen objv r st).elist.length := by
        simp [boStep, hc]
      have h2 := boRounds_elist_le gen objv tl (boStep gen objv r st)
      rw [List.foldl_cons] at hnil
      rw [hnil] at h2
      simp only [List.length_nil, Nat.le_zero, List.length_eq_zero] at h2
      rw [h2] at h1
      simp at h1
    · exact ih (boStep gen objv a st) hmem

/-- First-maximum selection always succeeds on a nonempty list. -/
theorem argmaxObs_isSome {α : Type} (l : List (ℕ × ℚ × α)) (h : l ≠ []) :
    ∃ e, argmaxObs l = some e := by
  cases l with
  | nil => exact absurd rfl h
  | cons a as => exact ⟨_, rfl⟩

/-- C6 counterexample: the claim says no exception from any round ever
propagates to the caller of bo_loop, for every pattern of failing rounds
including all rounds failing; but when every round fails, epochs_list stays
empty and the final selection indexes an empty array, raising IndexError to
the caller. -/
theorem all_rounds_failing_raises_index_error :
    boLoopRun "A" genFailAll id 1 (boInit id 0) = .error .indexError := rfl

/-- C6 amended: when the surrogate fit or candidate generation of a round
fails, exactly the most recently appended observation is removed (the last
rows of X_init and y_init are dropped, nothing else changes) and the loop
continues; and the loop returns a result rather than raising provided at
least one round succeeds — only in the degenerate situation in which no
round ever succeeds does the final selection raise IndexError (the
counterexample above). -/
theorem round_failure_policy_amended :
    (∀ (α : Type) (gen : ℕ → Except Unit α) (objv : α → ℚ) (r : ℕ)
        (st : BoSt α), gen r = .error () →
        boStep gen objv r st =
          { st with X := st.X.dropLast, y := st.y.dropLast })
    ∧ (∀ (α : Type) (opt : String) (gen : ℕ → Except Unit α)
        (objv : α → ℚ) (epochs : ℕ) (st0 : BoSt α) (r : ℕ), r < epochs →
        ∀ c, gen r = .ok c →
        ∃ res, boLoopRun opt gen objv epochs st0 = .ok res) := by
  constructor
  · intro α gen objv r st h
    simp [boStep, h]
  · intro α opt gen objv epochs st0 r hr c hc
    have hne := boRounds_elist_ne_nil gen objv (List.range epochs) st0 r
      (List.mem_range.mpr hr) c hc
    obtain ⟨e, he⟩ := argmaxObs_isSome _ hne
    refine ⟨(e.2.2, if opt = "D" ∨ opt = "I" then e.2.1 else -e.2.1), ?_⟩
    rw [boLoopRun]
    rw [he]

/-- Witness for the amended C6 theorem: a failing round on the initial
one-observation state empties the history, and a schedule whose round 0
succeeds returns a result. -/
theorem round_failure_policy_amended_witness :
    boStep genFailAll id 0 (boInit id 0) =
      { X := ([] : List ℚ), y := [], best := 0, elist := [] }
    ∧ ∃ res, boLoopRun "A" genOkZero id 1 (boInit id 0) = .ok res := by
  constructor
  · rw [round_failure_policy_amended.1 ℚ genFailAll id 0 (boInit id 0) rfl]
    rfl
  · exact round_failure_policy_amended.2 ℚ "A" genOkZero id 1 (boInit id 0)
      0 (by norm_num) 0 rfl

/-- C9 counterexample: the Observation History is not append-only — a
failing round removes the previously appended observation: starting from
the one-observation initial history, one failing round leaves an empty
history, so the length decreased and an appended observation was
removed. -/
theorem failed_round_shrinks_history :
    (boStep genFailAll id 0 (boInit id (0 : ℚ))).X.length = 0
    ∧ (boInit id (0 : ℚ)).X.length = 1
    ∧ (boStep genFailAll id 0 (boInit id (0 : ℚ))).y.length = 0
    ∧ (boInit id (0 : ℚ)).y.length = 1 := by
  refine ⟨rfl, rfl, rfl, rfl⟩

/-- C9 amended: every round either appends exactly one new observation at
the end of the history (success: the candidate and its objective value) or
removes exactly the most recently appended observation (failure: the last
rows of X_init and y_init are dropped); in both cases the history minus its
last element survives as a prefix, so observations other than a dropped
last are never modified. -/
theorem history_append_or_drop_last :
    ∀ (α : Type) (gen : ℕ → Except Unit α) (objv : α → ℚ) (r : ℕ)
      (st : BoSt α),
      ((∃ c, gen r = .ok c ∧ (boStep gen objv r st).X = st.X ++ [c]
          ∧ (boStep gen objv r st).y = st.y ++ [objv c])
        ∨ (gen r = .error () ∧ (boStep gen objv r st).X = st.X.dropLast
          ∧ (boStep gen objv r st).y = st.y.dropLast))
      ∧ st.X.dropLast <+: (boStep gen objv r st).X := by
  intro α gen objv r st
  cases h : gen r with
  | ok c =>
    refine ⟨Or.inl ⟨c, rfl, by simp [boStep, h], by simp [boStep, h]⟩, ?_⟩
    have h1 : st.X.dropLast <+: st.X := List.dropLast_prefix st.X
    have h2 : st.X <+: st.X ++ [c] := List.prefix_append st.X [c]
    have h3 : (boStep gen objv r st).X = st.X ++ [c] := by simp [boStep, h]
    rw [h3]
    exact h1.trans h2
  | error e =>
    cases e
    refine ⟨Or.inr ⟨rfl, by simp [boStep, h], by simp [boStep, h]⟩, ?_⟩
    have h3 : (boStep gen objv r st).X = st.X.dropLast := by simp [boStep, h]
    rw [h3]
